import Mathlib

/-!
# Verification of the linked-structure library (Node / SingleNode / Stack / Queue / List)

Shallow embedding of the TypeScript sources:

* `src/lib/data-structures/classes/node.ts` — abstract `Node<T>` (constructor
  validation, `hasData`, `isGreaterThan`, `isLessThan`) and the rich `Queue<T>`;
* the rich `SingleNode<T>` (self-reference-checking `next` setter);
* `src/lib/data-structures/classes/stack.ts` — the rich `Stack<T>`;
* `src/lib/data-structures/classes/linear-structure.ts` — `ALinearStructure<T>`
  (shared constructor with the truthiness test `if (data)`);
* the rich `List<T>` (positional `insert` / `find` / `remove`).

Modelling conventions:

* A JavaScript runtime value is a `Value`: a number (modelled as `Int`; the
  claims under study never need fractional or `NaN` arithmetic), a string, a
  boolean, `null`, or an object.  An object is a `CompObj` carrying an
  identity `id` (JavaScript `===` on objects is reference equality), a `key`
  (the payload compared by the repository's `MockClass` Comparable fixture)
  and three flags recording which of the capability methods `isEqual`,
  `isGreaterThan`, `isLesserThan` the object possesses (the code tests each
  with the `in` operator separately).
* The behaviour of a user-supplied capability method is modelled after the
  repository's own `MockClass` fixture: `isEqual` compares the `key` fields
  (`false` against a non-object argument, where `MockClass` compares against
  `undefined`), `isGreaterThan` / `isLesserThan` compare keys with `>` / `<`.
* An absent constructor argument (JavaScript `undefined`) is `Option.none`;
  `some Value.null` is a supplied `null`.
* A container's node chain reachable from `head` is a Lean list of the stored
  values, head first; `head == null` is `chain = []`.  The `tail` field of
  Queue/List is an `Option Value` holding the data of the node the tail
  reference points at (`none` = `null`).  In every reachable state the tail
  reference is the last node of the chain, so the code's
  `this._tail!.next = newNode` becomes appending to the chain.
* A thrown exception is `Except.error` of an `Err`; fallible operations
  return `Except Err α × State`, the second component being the state the
  object is left in (JavaScript exceptions do not roll anything back).  The
  error constructors follow the specification's taxonomy names and carry the
  exact message string thrown by the source; `Err.typeError` stands for the
  engine-raised `TypeError` of a null-pointer dereference.
-/

set_option autoImplicit false

namespace DS

/-- An object value: identity, `MockClass`-style payload, and which of the
Comparable capability methods it possesses. -/
structure CompObj where
  id : Nat
  key : Int
  hasIsEqual : Bool
  hasIsGreaterThan : Bool
  hasIsLesserThan : Bool
deriving DecidableEq

/-- A JavaScript runtime value as used by the library. -/
inductive Value where
  | num (n : Int)
  | str (s : String)
  | bool (b : Bool)
  | null
  | obj (o : CompObj)
deriving DecidableEq

/-- Error taxonomy of the specification; each constructor carries the message
text thrown at the corresponding `throw` site of the source. -/
inductive Err where
  | valueRequired (msg : String)
  | circularReference (msg : String)
  | comparisonUnsupported (msg : String)
  | stackUnderflow (msg : String)
  | queueUnderflow (msg : String)
  | indexOutOfBounds (msg : String)
  | typeError (msg : String)
deriving DecidableEq

/-- JavaScript truthiness of a `Value` (`if (data)` in
`ALinearStructure.constructor`): `0`, `""`, `false` and `null` are falsy,
objects are truthy. -/
def Value.truthy : Value → Bool
  | .num n => n != 0
  | .str s => s != ""
  | .bool b => b
  | .null => false
  | .obj _ => true

/-- JavaScript strict equality `===` between two values: same primitive kind
and equal, or the same object reference (`id`). -/
def Value.strictEq : Value → Value → Bool
  | .num a, .num b => a == b
  | .str a, .str b => a == b
  | .bool a, .bool b => a == b
  | .null, .null => true
  | .obj a, .obj b => a.id == b.id
  | _, _ => false

/-- `String(v)` — the string JavaScript produces for a value in a template
literal.  A plain object without a custom `toString` renders as
`[object Object]` (the repository's `MockClass` does not override it). -/
def Value.display : Value → String
  | .num n => toString n
  | .str s => s
  | .bool b => if b then "true" else "false"
  | .null => "null"
  | .obj _ => "[object Object]"

/-- `MockClass.isEqual`: compares the stored payloads; a non-object argument
has no payload and compares unequal. -/
def mockIsEqual (o : CompObj) (w : Value) : Bool :=
  match w with
  | .obj p => o.key == p.key
  | _ => false

/-- `MockClass.isGreaterThan`: payload comparison with `>`; against a
non-object argument the payload is `undefined` and `>` yields `false`. -/
def mockIsGreaterThan (o : CompObj) (w : Value) : Bool :=
  match w with
  | .obj p => o.key > p.key
  | _ => false

/-- `MockClass.isLesserThan`: payload comparison with `<`. -/
def mockIsLesserThan (o : CompObj) (w : Value) : Bool :=
  match w with
  | .obj p => o.key < p.key
  | _ => false

namespace Node

/-- `Node.constructor` validation: `data === null || data === undefined`
throws; a supplied `Value` can only be the `null` case (an `undefined`
argument never reaches a node constructor in the claims).  Returns the data
the node stores (freezing is irrelevant to the properties studied here). -/
def validate (v : Value) : Except Err Value :=
  if v = .null then
    Except.error (Err.valueRequired "Node data cannot be null or undefined")
  else
    Except.ok v

/-- `Node.hasData`: dispatches on the stored value only — a non-null object
possessing `isEqual` delegates to it, every other stored value uses strict
equality `===`. -/
def hasData (stored arg : Value) : Bool :=
  match stored with
  | .obj o => if o.hasIsEqual then mockIsEqual o arg else Value.strictEq stored arg
  | _ => Value.strictEq stored arg

/-- `Node.isGreaterThan`: if the receiver's stored value is a non-null object
with an `isGreaterThan` method, dispatch to it; else natural ordering when
both stored values are numbers or both strings; else throw. -/
def isGreaterThan (a b : Value) : Except Err Bool :=
  match a with
  | .obj o =>
      if o.hasIsGreaterThan then Except.ok (mockIsGreaterThan o b)
      else Except.error (Err.comparisonUnsupported "Data types do not support comparison")
  | .num x =>
      match b with
      | .num y => Except.ok (decide (x > y))
      | _ => Except.error (Err.comparisonUnsupported "Data types do not support comparison")
  | .str x =>
      match b with
      | .str y => Except.ok (decide (y < x))
      | _ => Except.error (Err.comparisonUnsupported "Data types do not support comparison")
  | _ => Except.error (Err.comparisonUnsupported "Data types do not support comparison")

/-- `Node.isLessThan`: identical dispatch, testing the `isLesserThan`
capability and using `<`. -/
def isLessThan (a b : Value) : Except Err Bool :=
  match a with
  | .obj o =>
      if o.hasIsLesserThan then Except.ok (mockIsLesserThan o b)
      else Except.error (Err.comparisonUnsupported "Data types do not support comparison")
  | .num x =>
      match b with
      | .num y => Except.ok (decide (x < y))
      | _ => Except.error (Err.comparisonUnsupported "Data types do not support comparison")
  | .str x =>
      match b with
      | .str y => Except.ok (decide (x < y))
      | _ => Except.error (Err.comparisonUnsupported "Data types do not support comparison")
  | _ => Except.error (Err.comparisonUnsupported "Data types do not support comparison")

end Node

/-- The guard `typeof data === 'object' && data !== null && 'isEqual' in data`
of `Node.hasData`. -/
def eqCapable : Value → Bool
  | .obj o => o.hasIsEqual
  | _ => false

/-- The guard `typeof data === 'object' && data !== null && 'isGreaterThan' in
data` of `Node.isGreaterThan`. -/
def gtCapable : Value → Bool
  | .obj o => o.hasIsGreaterThan
  | _ => false

/-- The guard `typeof data === 'object' && data !== null && 'isLesserThan' in
data` of `Node.isLessThan`. -/
def ltCapable : Value → Bool
  | .obj o => o.hasIsLesserThan
  | _ => false

/-- `typeof a === 'number' && typeof b === 'number'`. -/
def bothNumbers : Value → Value → Bool
  | .num _, .num _ => true
  | _, _ => false

/-- `typeof a === 'string' && typeof b === 'string'`. -/
def bothStrings : Value → Value → Bool
  | .str _, .str _ => true
  | _, _ => false

/-- The rich `SingleNode<T>`: a node with an identity (modelling the object
reference), its stored data and a forward link holding the identity of the
next node (`none` = `null`).  Distinct node objects have distinct `id`s, so
the reference comparison `next === this` is `id` equality. -/
structure SingleNode where
  id : Nat
  data : Value
  next : Option Nat
deriving DecidableEq

namespace SingleNode

/-- `new SingleNode(data)`: validates the data through the `Node` constructor
and starts with `_next = null`. -/
def mk' (id : Nat) (v : Value) : Except Err SingleNode :=
  match Node.validate v with
  | Except.error e => Except.error e
  | Except.ok d => Except.ok ⟨id, d, none⟩

/-- The rich `set next` accessor: `if (next === this) throw`; otherwise the
assignment succeeds. -/
def setNext (n : SingleNode) (next : Option Nat) : Except Err SingleNode :=
  if next = some n.id then
    Except.error (Err.circularReference "Cannot set next to self - circular reference detected")
  else
    Except.ok { n with next := next }

end SingleNode

/-- The rich `Stack<T>`: `_head` chain (top first) and cached `_size`
(a JavaScript number, modelled as `Int`). -/
structure Stack where
  chain : List Value
  size : Int
deriving DecidableEq

namespace Stack

/-- `Stack.constructor`: `if (data !== undefined)` pushes one node (node
construction throws on `null` data). -/
def mk' (data : Option Value) : Except Err Stack :=
  match data with
  | none => Except.ok ⟨[], 0⟩
  | some v =>
      match Node.validate v with
      | Except.error e => Except.error e
      | Except.ok d => Except.ok ⟨[d], 1⟩

/-- `isEmpty()`: `this._head === null`. -/
def isEmpty (s : Stack) : Bool :=
  s.chain = []

/-- `push(data)`: `new SingleNode(data)` (throws on `null` before any
mutation), link it in front of the current head, `_size++`. -/
def push (v : Value) (s : Stack) : Except Err Unit × Stack :=
  match Node.validate v with
  | Except.error e => (Except.error e, s)
  | Except.ok d => (Except.ok (), ⟨d :: s.chain, s.size + 1⟩)

/-- `pop()`: underflow check first; then detach the head node and `_size--`. -/
def pop (s : Stack) : Except Err Value × Stack :=
  match s.chain with
  | [] => (Except.error (Err.stackUnderflow "Cannot pop from an empty stack"), s)
  | d :: rest => (Except.ok d, ⟨rest, s.size - 1⟩)

/-- `peek()`: underflow check, then the head's data without mutation. -/
def peek (s : Stack) : Except Err Value × Stack :=
  match s.chain with
  | [] => (Except.error (Err.stackUnderflow "Cannot peek at an empty stack"), s)
  | d :: _ => (Except.ok d, s)

/-- `contains(data)`: linear scan with `node.hasData`. -/
def contains (v : Value) (s : Stack) : Bool :=
  s.chain.any (fun d => Node.hasData d v)

/-- `clear()`. -/
def clear (_s : Stack) : Stack :=
  ⟨[], 0⟩

/-- `toArray()`: top-to-bottom snapshot, i.e. the chain itself. -/
def toArray (s : Stack) : List Value :=
  s.chain

/-- `toString()`: note the space between `(size)` and the bracket in both
branches of the source. -/
def toStr (s : Stack) : String :=
  if s.isEmpty then "Stack(0) []"
  else "Stack(" ++ toString s.size ++ ") [" ++
    String.intercalate ", " (s.chain.map Value.display) ++ "]"

end Stack

/-- The rich `Queue<T>`: chain from `_head` (front first), `_tail` reference
(the data of the node it points at; `none` = `null`) and cached `_size`. -/
structure Queue where
  chain : List Value
  tail : Option Value
  size : Int
deriving DecidableEq

namespace Queue

/-- `Queue.constructor`: `super(data)` runs `ALinearStructure`'s truthiness
test `if (data)` to create the head node, then `if (data !== undefined)`
sets `_size = 1` and `_tail = this._head`.  For a defined falsy argument the
two tests disagree: no node is created yet the size is set to 1. -/
def mk' (data : Option Value) : Queue :=
  match data with
  | none => ⟨[], none, 0⟩
  | some v => if v.truthy then ⟨[v], some v, 1⟩ else ⟨[], none, 1⟩

/-- `isEmpty()`: `this._size === 0` (unlike Stack, which tests the head). -/
def isEmpty (q : Queue) : Bool :=
  q.size = 0

/-- `push(data)` (enqueue): node construction first (throws on `null`), then
either become the sole node or append after the tail node, which in every
reachable state is the last node of the chain; `_tail` moves to the new node
and `_size++`. -/
def push (v : Value) (q : Queue) : Except Err Unit × Queue :=
  match Node.validate v with
  | Except.error e => (Except.error e, q)
  | Except.ok d =>
      match q.chain with
      | [] => (Except.ok (), ⟨[d], some d, q.size + 1⟩)
      | _ => (Except.ok (), ⟨q.chain ++ [d], some d, q.size + 1⟩)

/-- `pop()` (dequeue): underflow check on `_head`; detach the head, and when
the chain becomes empty also set `_tail = null`; `_size--`. -/
def pop (q : Queue) : Except Err Value × Queue :=
  match q.chain with
  | [] => (Except.error (Err.queueUnderflow "Cannot dequeue from an empty queue."), q)
  | d :: rest =>
      (Except.ok d, ⟨rest, if rest = [] then none else q.tail, q.size - 1⟩)

/-- `peek()`. -/
def peek (q : Queue) : Except Err Value × Queue :=
  match q.chain with
  | [] => (Except.error (Err.queueUnderflow "Cannot peek at an empty queue."), q)
  | d :: _ => (Except.ok d, q)

/-- `rear()`: checks the tail reference. -/
def rear (q : Queue) : Except Err Value × Queue :=
  match q.tail with
  | none => (Except.error (Err.queueUnderflow "Cannot access rear of an empty queue."), q)
  | some d => (Except.ok d, q)

/-- `contains(data)`: linear scan with `node.hasData`. -/
def contains (v : Value) (q : Queue) : Bool :=
  q.chain.any (fun d => Node.hasData d v)

/-- `clear()`. -/
def clear (_q : Queue) : Queue :=
  ⟨[], none, 0⟩

/-- `toArray()`: front-to-rear snapshot. -/
def toArray (q : Queue) : List Value :=
  q.chain

/-- `toString()`: no space before the bracket. -/
def toStr (q : Queue) : String :=
  "Queue(" ++ toString q.size ++ ")[" ++
    String.intercalate ", " (q.chain.map Value.display) ++ "]"

end Queue

/-- The rich `List<T>` (source class `List`; renamed to avoid clashing with
Lean's `List`): chain from `_head`, `_tail` reference and cached `_size`. -/
structure LinkedList where
  chain : List Value
  tail : Option Value
  size : Int
deriving DecidableEq

namespace LinkedList

/-- `List.constructor`: identical to `Queue.constructor`, with the same
disagreement between `if (data)` and `if (data !== undefined)`. -/
def mk' (data : Option Value) : LinkedList :=
  match data with
  | none => ⟨[], none, 0⟩
  | some v => if v.truthy then ⟨[v], some v, 1⟩ else ⟨[], none, 1⟩

/-- `isEmpty()`: `this._size === 0`. -/
def isEmpty (l : LinkedList) : Bool :=
  l.size = 0

/-- `push(data)`: append at the tail, as in `Queue.push`. -/
def push (v : Value) (l : LinkedList) : Except Err Unit × LinkedList :=
  match Node.validate v with
  | Except.error e => (Except.error e, l)
  | Except.ok d =>
      match l.chain with
      | [] => (Except.ok (), ⟨[d], some d, l.size + 1⟩)
      | _ => (Except.ok (), ⟨l.chain ++ [d], some d, l.size + 1⟩)

/-- `prepend(data)`: node construction first, then insert before the head
(the tail is untouched unless the list was empty). -/
def prepend (v : Value) (l : LinkedList) : Except Err Unit × LinkedList :=
  match Node.validate v with
  | Except.error e => (Except.error e, l)
  | Except.ok d =>
      match l.chain with
      | [] => (Except.ok (), ⟨[d], some d, l.size + 1⟩)
      | _ => (Except.ok (), ⟨d :: l.chain, l.tail, l.size + 1⟩)

/-- `insert(index, data)`: bounds check against `_size` first; index 0
delegates to `prepend`, index = `_size` to `push`; otherwise construct the
node (throws on `null`), walk to the predecessor — dereferencing a null link
(a `TypeError`) when the chain is shorter than the cached size pretends —
and splice. -/
def insert (i : Int) (v : Value) (l : LinkedList) : Except Err Unit × LinkedList :=
  if i < 0 ∨ i > l.size then
    (Except.error (Err.indexOutOfBounds "Index out of bounds."), l)
  else if i = 0 then
    prepend v l
  else if i = l.size then
    push v l
  else
    match Node.validate v with
    | Except.error e => (Except.error e, l)
    | Except.ok d =>
        if l.chain.length < i.toNat then
          (Except.error (Err.typeError "Cannot read properties of null"), l)
        else
          (Except.ok (),
            ⟨l.chain.take i.toNat ++ d :: l.chain.drop i.toNat, l.tail, l.size + 1⟩)

/-- `find(index)`: bounds check against `_size`, then an O(index) walk
returning the data; in a state whose chain is shorter than the cached size
the walk dereferences a null link (`TypeError`). -/
def find (i : Int) (l : LinkedList) : Except Err Value × LinkedList :=
  if i < 0 ∨ i ≥ l.size then
    (Except.error (Err.indexOutOfBounds "Index out of bounds."), l)
  else
    match l.chain[i.toNat]? with
    | some d => (Except.ok d, l)
    | none => (Except.error (Err.typeError "Cannot read properties of null"), l)

/-- Walk of `indexOf`: first index whose node `hasData` matches, else −1. -/
def indexOfAux (v : Value) : List Value → Int → Int
  | [], _ => -1
  | d :: rest, i => if Node.hasData d v then i else indexOfAux v rest (i + 1)

/-- `indexOf(data)`. -/
def indexOf (v : Value) (l : LinkedList) : Int :=
  indexOfAux v l.chain 0

/-- `contains(data)`: `indexOf(data) !== -1`. -/
def contains (v : Value) (l : LinkedList) : Bool :=
  l.indexOf v ≠ -1

/-- `remove(index)`: bounds check against `_size` first.  Index 0 re-points
the head past the first node (`this._head!.next` dereferences null on a
desynchronised empty chain) and clears the tail exactly when `_size === 1`.
Otherwise walk to the predecessor, splice past the removed node, and when
removing the last index re-point `_tail` to the predecessor. -/
def remove (i : Int) (l : LinkedList) : Except Err Unit × LinkedList :=
  if i < 0 ∨ i ≥ l.size then
    (Except.error (Err.indexOutOfBounds "Index out of bounds."), l)
  else if i = 0 then
    match l.chain with
    | [] => (Except.error (Err.typeError "Cannot read properties of null"), l)
    | _ :: rest =>
        (Except.ok (), ⟨rest, if l.size = 1 then none else l.tail, l.size - 1⟩)
  else
    if l.chain.length < i.toNat + 1 then
      (Except.error (Err.typeError "Cannot read properties of null"), l)
    else
      (Except.ok (),
        ⟨l.chain.take i.toNat ++ l.chain.drop (i.toNat + 1),
         if i = l.size - 1 then l.chain[i.toNat - 1]? else l.tail,
         l.size - 1⟩)

/-- `removeData(data)`: find the first index, `false` when absent, else
remove it and return `true`. -/
def removeData (v : Value) (l : LinkedList) : Except Err Bool × LinkedList :=
  let idx := l.indexOf v
  if idx = -1 then (Except.ok false, l)
  else
    match l.remove idx with
    | (Except.ok _, l') => (Except.ok true, l')
    | (Except.error e, l') => (Except.error e, l')

/-- `clear()`. -/
def clear (_l : LinkedList) : LinkedList :=
  ⟨[], none, 0⟩

/-- `toArray()`: head-to-tail snapshot. -/
def toArray (l : LinkedList) : List Value :=
  l.chain

/-- `toString()`: no space before the bracket. -/
def toStr (l : LinkedList) : String :=
  "List(" ++ toString l.size ++ ")[" ++
    String.intercalate ", " (l.chain.map Value.display) ++ "]"

end LinkedList

/-- Pushing a list of values onto a stack in order, stopping at the first
thrown error. -/
def Stack.pushAll (vs : List Value) (s : Stack) : Except Err Stack :=
  match vs with
  | [] => Except.ok s
  | v :: rest =>
      match Stack.push v s with
      | (Except.ok _, s') => Stack.pushAll rest s'
      | (Except.error e, _) => Except.error e

/-- Popping `n` times, collecting the returned values in order. -/
def Stack.popN : Nat → Stack → Except Err (List Value)
  | 0, _ => Except.ok []
  | n + 1, s =>
      match Stack.pop s with
      | (Except.ok d, s') =>
          match Stack.popN n s' with
          | Except.ok ds => Except.ok (d :: ds)
          | Except.error e => Except.error e
      | (Except.error e, _) => Except.error e

/-- Enqueuing a list of values in order. -/
def Queue.pushAll (vs : List Value) (q : Queue) : Except Err Queue :=
  match vs with
  | [] => Except.ok q
  | v :: rest =>
      match Queue.push v q with
      | (Except.ok _, q') => Queue.pushAll rest q'
      | (Except.error e, _) => Except.error e

/-- Pushing a list of values onto a list in order. -/
def LinkedList.pushAll (vs : List Value) (l : LinkedList) : Except Err LinkedList :=
  match vs with
  | [] => Except.ok l
  | v :: rest =>
      match LinkedList.push v l with
      | (Except.ok _, l') => LinkedList.pushAll rest l'
      | (Except.error e, _) => Except.error e

/-- Queue states reachable through the public interface: construction with
zero or one argument and the mutating operations when they succeed.  The
read-only operations (`peek`, `rear`, `contains`, `toArray`, `toString`,
iteration) and the failing runs of `push`/`pop` return the input state
itself, so they add no states. -/
inductive QReach : Queue → Prop where
  | ctor (data : Option Value) : QReach (Queue.mk' data)
  | push (q : Queue) (v : Value) : QReach q → (Queue.push v q).1 = Except.ok () →
      QReach (Queue.push v q).2
  | pop (q : Queue) (d : Value) : QReach q → (Queue.pop q).1 = Except.ok d →
      QReach (Queue.pop q).2
  | clear (q : Queue) : QReach q → QReach (Queue.clear q)

/-! ## Invariants and lemmas -/

/-- In every reachable queue state the head and the tail reference are null
simultaneously or non-null simultaneously — even in the size-desynchronised
states produced by a falsy constructor argument, where both are null. -/
theorem Queue.null_sync (q : Queue) (h : QReach q) : q.chain = [] ↔ q.tail = none := by
  induction h with
  | ctor data =>
      cases data with
      | none => simp [Queue.mk']
      | some v =>
          simp only [Queue.mk']
          split <;> simp
  | push q v hq hok ih =>
      by_cases hn : v = Value.null
      · simp [Queue.push, Node.validate, hn] at hok
      · cases hc : q.chain with
        | nil => simp [Queue.push, Node.validate, hn, hc]
        | cons a rest => simp [Queue.push, Node.validate, hn, hc]
  | pop q d hq hok ih =>
      cases hc : q.chain with
      | nil => simp [Queue.pop, hc] at hok
      | cons a rest =>
          cases rest with
          | nil => simp [Queue.pop, hc]
          | cons b rs =>
              simp only [Queue.pop, hc] at hok ⊢
              simp only [hc] at ih
              simp at ih ⊢
              exact ih
  | clear q hq ih => simp [Queue.clear]

/-- Content of `pushAll` on a stack: the values end up in front of the old
chain in reverse order, and the cached size grows by their number. -/
theorem stack_pushAll_spec (vs : List Value) (s s' : Stack)
    (h : Stack.pushAll vs s = Except.ok s') :
    s'.chain = vs.reverse ++ s.chain ∧ s'.size = s.size + vs.length := by
  induction vs generalizing s with
  | nil =>
      simp only [Stack.pushAll] at h
      cases h
      simp
  | cons v rest ih =>
      by_cases hn : v = Value.null
      · simp [Stack.pushAll, Stack.push, Node.validate, hn] at h
      · simp only [Stack.pushAll, Stack.push, Node.validate, hn, if_neg] at h
        have := ih ⟨v :: s.chain, s.size + 1⟩ h
        simp only at this
        refine ⟨?_, ?_⟩
        · rw [this.1]
          simp
        · rw [this.2]
          simp only [List.length_cons]
          omega

/-- Popping as many times as a prefix of the chain is long returns exactly
that prefix. -/
theorem Stack.popN_append (pre rest : List Value) (s : Stack)
    (h : s.chain = pre ++ rest) :
    Stack.popN pre.length s = Except.ok pre := by
  induction pre generalizing s with
  | nil => simp [Stack.popN]
  | cons d pre' ih =>
      cases s with
      | mk chain size =>
          simp only at h
          subst h
          simp only [List.cons_append, List.length_cons, Stack.popN, Stack.pop]
          rw [ih ⟨pre' ++ rest, size - 1⟩ rfl]

/-- A successful enqueue appends the value at the end of the chain and moves
the tail reference to it. -/
theorem queue_push_ok (v : Value) (q : Queue) (hn : v ≠ Value.null) :
    Queue.push v q = (Except.ok (), ⟨q.chain ++ [v], some v, q.size + 1⟩) := by
  cases hc : q.chain <;> simp [Queue.push, Node.validate, hn, hc]

/-- A successful list push appends the value at the end of the chain. -/
theorem list_push_ok (v : Value) (l : LinkedList) (hn : v ≠ Value.null) :
    LinkedList.push v l = (Except.ok (), ⟨l.chain ++ [v], some v, l.size + 1⟩) := by
  cases hc : l.chain <;> simp [LinkedList.push, Node.validate, hn, hc]

/-- Content of `Queue.pushAll`: values are appended in order and the size
grows by their number. -/
theorem queue_pushAll_spec (vs : List Value) (q q' : Queue)
    (h : Queue.pushAll vs q = Except.ok q') :
    q'.chain = q.chain ++ vs ∧ q'.size = q.size + vs.length := by
  induction vs generalizing q with
  | nil =>
      simp only [Queue.pushAll] at h
      cases h
      simp
  | cons v rest ih =>
      by_cases hn : v = Value.null
      · simp [Queue.pushAll, Queue.push, Node.validate, hn] at h
      · rw [Queue.pushAll, queue_push_ok v q hn] at h
        have := ih ⟨q.chain ++ [v], some v, q.size + 1⟩ h
        simp only at this
        refine ⟨?_, ?_⟩
        · rw [this.1]
          simp
        · rw [this.2]
          simp only [List.length_cons]
          omega

/-- Content of `LinkedList.pushAll`: values are appended in order and the
size grows by their number. -/
theorem list_pushAll_spec (vs : List Value) (l l' : LinkedList)
    (h : LinkedList.pushAll vs l = Except.ok l') :
    l'.chain = l.chain ++ vs ∧ l'.size = l.size + vs.length := by
  induction vs generalizing l with
  | nil =>
      simp only [LinkedList.pushAll] at h
      cases h
      simp
  | cons v rest ih =>
      by_cases hn : v = Value.null
      · simp [LinkedList.pushAll, LinkedList.push, Node.validate, hn] at h
      · rw [LinkedList.pushAll, list_push_ok v l hn] at h
        have := ih ⟨l.chain ++ [v], some v, l.size + 1⟩ h
        simp only at this
        refine ⟨?_, ?_⟩
        · rw [this.1]
          simp
        · rw [this.2]
          simp only [List.length_cons]
          omega

/-- A successful prepend inserts the value before the head; the tail moves
only when the list was empty. -/
theorem LinkedList.prepend_ok (v : Value) (l : LinkedList) (hn : v ≠ Value.null) :
    LinkedList.prepend v l =
      (Except.ok (),
        ⟨v :: l.chain, if l.chain = [] then some v else l.tail, l.size + 1⟩) := by
  cases hc : l.chain <;> simp [LinkedList.prepend, Node.validate, hn, hc]

/-- `find` returns the chain entry at an in-bounds index. -/
theorem LinkedList.find_spec (i : Int) (l : LinkedList) (d : Value)
    (h0 : 0 ≤ i) (hi : i < l.size) (hd : l.chain[i.toNat]? = some d) :
    (LinkedList.find i l).1 = Except.ok d := by
  have hcond : ¬ (i < 0 ∨ i ≥ l.size) := by omega
  simp only [LinkedList.find, hcond, if_false, hd]

/-- `insert` at index 0 delegates to `prepend`. -/
theorem LinkedList.insert_zero (v : Value) (l : LinkedList) (hsz : 0 ≤ l.size) :
    LinkedList.insert 0 v l = LinkedList.prepend v l := by
  have hcond : ¬ ((0 : Int) < 0 ∨ (0 : Int) > l.size) := by omega
  simp only [LinkedList.insert, hcond, if_false, if_pos rfl, if_true]

/-- `insert` at index `size` (nonzero) delegates to `push`. -/
theorem LinkedList.insert_at_size (v : Value) (l : LinkedList)
    (hsz : 0 ≤ l.size) (hz : l.size ≠ 0) :
    LinkedList.insert l.size v l = LinkedList.push v l := by
  have hcond : ¬ (l.size < 0 ∨ l.size > l.size) := by omega
  simp only [LinkedList.insert, hcond, if_false, hz, if_pos rfl, if_true]

/-- The strict middle case of `insert`: the walk reaches the predecessor and
splices the new node in; the tail is untouched. -/
theorem LinkedList.insert_mid_ok (i : Int) (v : Value) (l : LinkedList)
    (hn : v ≠ Value.null) (h0 : 0 < i) (hi : i < l.size)
    (hlen : i.toNat ≤ l.chain.length) :
    LinkedList.insert i v l =
      (Except.ok (),
        ⟨l.chain.take i.toNat ++ v :: l.chain.drop i.toNat, l.tail, l.size + 1⟩) := by
  have hcond : ¬ (i < 0 ∨ i > l.size) := by omega
  have hz : ¬ i = 0 := by omega
  have he : ¬ i = l.size := by omega
  have hl : ¬ l.chain.length < i.toNat := by omega
  simp only [LinkedList.insert, hcond, if_false, hz, he, Node.validate, hn,
    ite_false, hl]

/-- On a well-formed list (cached size equal to the chain length, as in every
state not produced by a defined falsy constructor argument) `insert(i, x)`
succeeds for `0 ≤ i ≤ size` and a subsequent `find(i)` returns `x`. -/
theorem LinkedList.insert_find_wf (l : LinkedList) (i : Int) (v : Value)
    (hwf : l.size = (l.chain.length : Int)) (hv : v ≠ Value.null)
    (h0 : 0 ≤ i) (hi : i ≤ l.size) :
    (LinkedList.insert i v l).1 = Except.ok () ∧
    (LinkedList.find i (LinkedList.insert i v l).2).1 = Except.ok v := by
  have hsz : 0 ≤ l.size := by
    rw [hwf]
    exact Int.ofNat_nonneg _
  by_cases hz : i = 0
  · subst hz
    rw [LinkedList.insert_zero v l hsz, LinkedList.prepend_ok v l hv]
    exact ⟨rfl, LinkedList.find_spec 0 _ v (le_refl 0) (by simp; omega) (by simp)⟩
  · by_cases he : i = l.size
    · rw [he, LinkedList.insert_at_size v l hsz (by omega), list_push_ok v l hv]
      refine ⟨rfl, ?_⟩
      refine LinkedList.find_spec l.size _ v (by omega) (by simp) ?_
      have hlen : l.size.toNat = l.chain.length := by omega
      simp only [hlen, List.getElem?_concat_length]
    · rw [LinkedList.insert_mid_ok i v l hv (by omega) (by omega) (by omega)]
      refine ⟨rfl, ?_⟩
      refine LinkedList.find_spec i _ v h0 (by simp; omega) ?_
      have htake : (l.chain.take i.toNat).length = i.toNat := by
        rw [List.length_take]
        omega
      rw [List.getElem?_append_right (by omega), htake]
      simp

/-- A failed `Stack.pop` leaves the stack unchanged. -/
theorem stack_pop_fail_state (s : Stack) :
    (Stack.pop s).1.isOk = false → (Stack.pop s).2 = s := by
  cases hc : s.chain <;> simp [Stack.pop, hc, Except.isOk, Except.toBool]

/-- A failed `Stack.peek` leaves the stack unchanged. -/
theorem stack_peek_fail_state (s : Stack) :
    (Stack.peek s).1.isOk = false → (Stack.peek s).2 = s := by
  cases hc : s.chain <;> simp [Stack.peek, hc, Except.isOk, Except.toBool]

/-- A failed `Stack.push` (null data) leaves the stack unchanged. -/
theorem stack_push_fail_state (v : Value) (s : Stack) :
    (Stack.push v s).1.isOk = false → (Stack.push v s).2 = s := by
  by_cases hn : v = Value.null <;> simp [Stack.push, Node.validate, hn, Except.isOk, Except.toBool]

/-- A failed `Queue.pop` leaves the queue unchanged. -/
theorem queue_pop_fail_state (q : Queue) :
    (Queue.pop q).1.isOk = false → (Queue.pop q).2 = q := by
  cases hc : q.chain <;> simp [Queue.pop, hc, Except.isOk, Except.toBool]

/-- A failed `Queue.peek` leaves the queue unchanged. -/
theorem queue_peek_fail_state (q : Queue) :
    (Queue.peek q).1.isOk = false → (Queue.peek q).2 = q := by
  cases hc : q.chain <;> simp [Queue.peek, hc, Except.isOk, Except.toBool]

/-- A failed `Queue.rear` leaves the queue unchanged. -/
theorem queue_rear_fail_state (q : Queue) :
    (Queue.rear q).1.isOk = false → (Queue.rear q).2 = q := by
  cases hc : q.tail <;> simp [Queue.rear, hc, Except.isOk, Except.toBool]

/-- A failed `Queue.push` (null data) leaves the queue unchanged. -/
theorem queue_push_fail_state (v : Value) (q : Queue) :
    (Queue.push v q).1.isOk = false → (Queue.push v q).2 = q := by
  by_cases hn : v = Value.null <;>
    cases hc : q.chain <;> simp [Queue.push, Node.validate, hn, hc, Except.isOk, Except.toBool]

/-- A failed `List.find` leaves the list unchanged. -/
theorem list_find_fail_state (i : Int) (l : LinkedList) :
    (LinkedList.find i l).1.isOk = false → (LinkedList.find i l).2 = l := by
  by_cases hb : i < 0 ∨ i ≥ l.size
  · simp [LinkedList.find, hb]
  · rw [LinkedList.find, if_neg hb]
    cases hg : l.chain[i.toNat]? <;> simp [hg, Except.isOk, Except.toBool]

/-- A failed `List.push` leaves the list unchanged. -/
theorem list_push_fail_state (v : Value) (l : LinkedList) :
    (LinkedList.push v l).1.isOk = false → (LinkedList.push v l).2 = l := by
  by_cases hn : v = Value.null <;>
    cases hc : l.chain <;> simp [LinkedList.push, Node.validate, hn, hc, Except.isOk, Except.toBool]

/-- A failed `List.prepend` leaves the list unchanged. -/
theorem list_prepend_fail_state (v : Value) (l : LinkedList) :
    (LinkedList.prepend v l).1.isOk = false → (LinkedList.prepend v l).2 = l := by
  by_cases hn : v = Value.null <;>
    cases hc : l.chain <;> simp [LinkedList.prepend, Node.validate, hn, hc, Except.isOk, Except.toBool]

/-- A failed `List.insert` leaves the list unchanged. -/
theorem list_insert_fail_state (i : Int) (v : Value) (l : LinkedList) :
    (LinkedList.insert i v l).1.isOk = false → (LinkedList.insert i v l).2 = l := by
  by_cases hb : i < 0 ∨ i > l.size
  · simp [LinkedList.insert, hb]
  · by_cases hz : i = 0
    · subst hz
      rw [LinkedList.insert_zero v l (by omega)]
      exact list_prepend_fail_state v l
    · by_cases he : i = l.size
      · subst he
        rw [LinkedList.insert_at_size v l (by omega) hz]
        exact list_push_fail_state v l
      · by_cases hn : v = Value.null
        · simp [LinkedList.insert, hb, hz, he, Node.validate, hn, Except.isOk, Except.toBool]
        · by_cases hl : l.chain.length < i.toNat <;>
            simp [LinkedList.insert, hb, hz, he, Node.validate, hn, hl, Except.isOk, Except.toBool]

/-- A failed `List.remove` leaves the list unchanged. -/
theorem list_remove_fail_state (i : Int) (l : LinkedList) :
    (LinkedList.remove i l).1.isOk = false → (LinkedList.remove i l).2 = l := by
  by_cases hb : i < 0 ∨ i ≥ l.size
  · simp [LinkedList.remove, hb]
  · by_cases hz : i = 0
    · subst hz
      have hpos : ¬ l.size ≤ 0 := by omega
      cases hc : l.chain <;> simp [LinkedList.remove, hb, hpos, hc, Except.isOk, Except.toBool]
    · by_cases hl : l.chain.length < i.toNat + 1 <;>
        simp [LinkedList.remove, hb, hz, hl, Except.isOk, Except.toBool]

/-- A failed `List.removeData` leaves the list unchanged. -/
theorem list_removeData_fail_state (v : Value) (l : LinkedList) :
    (LinkedList.removeData v l).1.isOk = false → (LinkedList.removeData v l).2 = l := by
  by_cases hidx : l.indexOf v = -1
  · simp [LinkedList.removeData, hidx]
  · intro h
    simp only [LinkedList.removeData, hidx, if_false] at h ⊢
    cases hr : LinkedList.remove (l.indexOf v) l with
    | mk r l2 =>
        cases r with
        | error e =>
            have h2 := list_remove_fail_state (l.indexOf v) l
            rw [hr] at h2
            exact h2 (by simp [Except.isOk, Except.toBool])
        | ok u =>
            rw [hr] at h
            simp [Except.isOk, Except.toBool] at h

/-! ## Claims -/

/-- C1 (code bug): the claimed invariant — cached size equals the number of
nodes reachable from head, and `size == 0 ⇔ head == null` — is violated by a
reachable state: constructing a Queue or a List with the defined falsy value
`0` leaves `head == null` (the base constructor tests truthiness) while the
subclass sets `size = 1` (it tests only `!== undefined`).  This theorem
evaluates the constructors at the failing input. -/
theorem c1_queue_list_constructor_size_desync :
    (Queue.mk' (some (Value.num 0))).size = 1 ∧
    (Queue.mk' (some (Value.num 0))).chain = [] ∧
    (LinkedList.mk' (some (Value.num 0))).size = 1 ∧
    (LinkedList.mk' (some (Value.num 0))).chain = [] :=
  ⟨rfl, rfl, rfl, rfl⟩

/-- C2: for every sequence of values pushed in order onto an initially empty
stack, popping as many times returns the values in reverse order (strict
LIFO). -/
theorem c2_stack_lifo (vs : List Value) (s0 s : Stack)
    (h0 : Stack.mk' none = Except.ok s0)
    (h : Stack.pushAll vs s0 = Except.ok s) :
    Stack.popN vs.length s = Except.ok vs.reverse := by
  have hs0 : s0 = ⟨[], 0⟩ := by
    simp only [Stack.mk'] at h0
    cases h0
    rfl
  subst hs0
  have hc := (stack_pushAll_spec vs _ _ h).1
  have hpop : Stack.popN vs.reverse.length s = Except.ok vs.reverse :=
    Stack.popN_append vs.reverse [] s (by simpa using hc)
  simpa [List.length_reverse] using hpop

/-- Witness for C2 at the pushed sequence `1, 2, 3`. -/
theorem c2_stack_lifo_witness :
    Stack.popN 3 ⟨[Value.num 3, Value.num 2, Value.num 1], 3⟩ =
      Except.ok [Value.num 3, Value.num 2, Value.num 1] := by
  have h := c2_stack_lifo [Value.num 1, Value.num 2, Value.num 3] ⟨[], 0⟩
    ⟨[Value.num 3, Value.num 2, Value.num 1], 3⟩ rfl rfl
  simpa using h

/-- C3: in every reachable queue state, after every successful `pop()` the
head and tail references are null simultaneously or non-null simultaneously;
removing the sole element nulls both together. -/
theorem c3_queue_pop_head_tail_null_sync (q : Queue) (d : Value)
    (h : QReach q) (hok : (Queue.pop q).1 = Except.ok d) :
    ((Queue.pop q).2.chain = [] ↔ (Queue.pop q).2.tail = none) :=
  Queue.null_sync _ (QReach.pop q d h hok)

/-- Witness for C3: popping the sole element of the queue `[1]`. -/
theorem c3_queue_pop_head_tail_null_sync_witness :
    ((Queue.pop (Queue.push (Value.num 1) (Queue.mk' none)).2).2.chain = [] ↔
      (Queue.pop (Queue.push (Value.num 1) (Queue.mk' none)).2).2.tail = none) :=
  c3_queue_pop_head_tail_null_sync _ (Value.num 1)
    (QReach.push _ _ (QReach.ctor none) rfl) rfl

/-- C4 (code bug): `insert(i, x)` followed by `find(i)` is claimed to return
`x` for every list and every `0 ≤ i ≤ size`; on the size-desynchronised list
`new List(0)` the insert at index `1 = size` succeeds but `find(1)` walks off
the null head and raises a `TypeError` instead of returning the value. -/
theorem c4_insert_find_type_error_on_desynced_list :
    (LinkedList.insert 1 (Value.num 5) (LinkedList.mk' (some (Value.num 0)))).1 =
      Except.ok () ∧
    (LinkedList.find 1
        (LinkedList.insert 1 (Value.num 5)
          (LinkedList.mk' (some (Value.num 0)))).2).1 =
      Except.error (Err.typeError "Cannot read properties of null") :=
  ⟨rfl, rfl⟩

/-- C5 (code bug): construction with no argument yields an empty container,
but a supplied `null` does not: `new Stack(null)` throws from the node
constructor, while `new Queue(null)` / `new List(null)` produce a container
with `size == 1` and no node — neither an empty container nor one holding a
null element. -/
theorem c5_absent_constructor_argument_divergence :
    Stack.mk' none = Except.ok (⟨[], 0⟩ : Stack) ∧
    Queue.mk' none = (⟨[], none, 0⟩ : Queue) ∧
    LinkedList.mk' none = (⟨[], none, 0⟩ : LinkedList) ∧
    Stack.mk' (some Value.null) =
      Except.error (Err.valueRequired "Node data cannot be null or undefined") ∧
    (Queue.mk' (some Value.null)).size = 1 ∧
    (Queue.mk' (some Value.null)).chain = [] ∧
    (LinkedList.mk' (some Value.null)).size = 1 ∧
    (LinkedList.mk' (some Value.null)).chain = [] :=
  ⟨rfl, rfl, rfl, rfl, rfl, rfl, rfl, rfl⟩

/-- C6: assigning a node to its own `next` fails with the
`CircularReferenceError`, any other assignment succeeds, and consequently a
node's forward link never equals the node itself (fresh nodes start with a
null link). -/
theorem c6_single_node_next_self_assignment (n : SingleNode) (m : Option Nat) :
    SingleNode.setNext n (some n.id) =
      Except.error (Err.circularReference
        "Cannot set next to self - circular reference detected") ∧
    (m ≠ some n.id → SingleNode.setNext n m = Except.ok { n with next := m }) ∧
    (∀ n2 : SingleNode, SingleNode.setNext n m = Except.ok n2 →
      n2.next ≠ some n2.id) ∧
    (∀ (i : Nat) (v : Value) (node : SingleNode),
      SingleNode.mk' i v = Except.ok node → node.next ≠ some node.id) := by
  refine ⟨?_, ?_, ?_, ?_⟩
  · simp [SingleNode.setNext]
  · intro hm
    simp [SingleNode.setNext, hm]
  · intro n2 h
    simp only [SingleNode.setNext] at h
    split at h
    · cases h
    · rename_i hne
      cases h
      simpa using hne
  · intro i v node h
    simp only [SingleNode.mk'] at h
    cases hv : Node.validate v with
    | error e => rw [hv] at h; cases h
    | ok d =>
        rw [hv] at h
        cases h
        simp

/-- Witness for C6 on the concrete node `⟨0, 1, null⟩`. -/
theorem c6_single_node_next_self_assignment_witness :
    SingleNode.setNext ⟨0, Value.num 1, none⟩ (some 0) =
      Except.error (Err.circularReference
        "Cannot set next to self - circular reference detected") ∧
    SingleNode.setNext ⟨0, Value.num 1, none⟩ (some 1) =
      Except.ok ⟨0, Value.num 1, some 1⟩ :=
  ⟨(c6_single_node_next_self_assignment ⟨0, Value.num 1, none⟩ (some 0)).1,
   (c6_single_node_next_self_assignment ⟨0, Value.num 1, none⟩ (some 1)).2.1
     (by decide)⟩

/-- C7: `isGreaterThan`/`isLessThan` dispatch to the Comparable capability
when the receiver's stored value implements the method; otherwise they use
natural ordering when both stored values are numbers or both are strings;
and they raise the `ComparisonUnsupportedError` exactly for every other
pairing. -/
theorem c7_comparison_dispatch (a b : Value) :
    (∀ o : CompObj, a = Value.obj o → o.hasIsGreaterThan = true →
      Node.isGreaterThan a b = Except.ok (mockIsGreaterThan o b)) ∧
    (∀ o : CompObj, a = Value.obj o → o.hasIsLesserThan = true →
      Node.isLessThan a b = Except.ok (mockIsLesserThan o b)) ∧
    (∀ x y : Int, a = Value.num x → b = Value.num y →
      Node.isGreaterThan a b = Except.ok (decide (x > y)) ∧
      Node.isLessThan a b = Except.ok (decide (x < y))) ∧
    (∀ x y : String, a = Value.str x → b = Value.str y →
      Node.isGreaterThan a b = Except.ok (decide (y < x)) ∧
      Node.isLessThan a b = Except.ok (decide (x < y))) ∧
    (Node.isGreaterThan a b =
        Except.error (Err.comparisonUnsupported "Data types do not support comparison") ↔
      gtCapable a = false ∧ bothNumbers a b = false ∧ bothStrings a b = false) ∧
    (Node.isLessThan a b =
        Except.error (Err.comparisonUnsupported "Data types do not support comparison") ↔
      ltCapable a = false ∧ bothNumbers a b = false ∧ bothStrings a b = false) := by
  cases a with
  | obj o =>
      cases hgt : o.hasIsGreaterThan <;> cases hlt : o.hasIsLesserThan <;>
        simp [Node.isGreaterThan, Node.isLessThan, gtCapable, ltCapable,
          bothNumbers, bothStrings, hgt, hlt]
  | num x =>
      cases b <;>
        simp [Node.isGreaterThan, Node.isLessThan, gtCapable, ltCapable,
          bothNumbers, bothStrings]
  | str s =>
      cases b <;>
        simp [Node.isGreaterThan, Node.isLessThan, gtCapable, ltCapable,
          bothNumbers, bothStrings]
  | bool v =>
      cases b <;>
        simp [Node.isGreaterThan, Node.isLessThan, gtCapable, ltCapable,
          bothNumbers, bothStrings]
  | null =>
      cases b <;>
        simp [Node.isGreaterThan, Node.isLessThan, gtCapable, ltCapable,
          bothNumbers, bothStrings]

/-- Witness for C7: number-number ordering, an unsupported pairing, and a
capability dispatch, all concrete. -/
theorem c7_comparison_dispatch_witness :
    Node.isGreaterThan (Value.num 3) (Value.num 2) = Except.ok true ∧
    Node.isLessThan (Value.str "a") (Value.bool true) =
      Except.error (Err.comparisonUnsupported "Data types do not support comparison") ∧
    Node.isGreaterThan (Value.obj ⟨0, 5, true, true, true⟩)
        (Value.obj ⟨1, 3, true, true, true⟩) =
      Except.ok true := by
  have h1 := (c7_comparison_dispatch (Value.num 3) (Value.num 2)).2.2.1 3 2 rfl rfl
  have h2 := (c7_comparison_dispatch (Value.str "a") (Value.bool true)).2.2.2.2.2
  have h3 := (c7_comparison_dispatch (Value.obj ⟨0, 5, true, true, true⟩)
    (Value.obj ⟨1, 3, true, true, true⟩)).1 ⟨0, 5, true, true, true⟩ rfl rfl
  refine ⟨?_, ?_, ?_⟩
  · rw [h1.1]
    exact rfl
  · exact h2.mpr (by decide)
  · rw [h3]
    exact rfl

/-- C8: every fallible operation checks validity before any structural
change — whenever it returns an error, the container state it leaves behind
is exactly the input state. -/
theorem c8_failed_operations_leave_state_unchanged (st : Stack) (q : Queue)
    (l : LinkedList) (i : Int) (v : Value) :
    ((Stack.pop st).1.isOk = false → (Stack.pop st).2 = st) ∧
    ((Stack.peek st).1.isOk = false → (Stack.peek st).2 = st) ∧
    ((Stack.push v st).1.isOk = false → (Stack.push v st).2 = st) ∧
    ((Queue.pop q).1.isOk = false → (Queue.pop q).2 = q) ∧
    ((Queue.peek q).1.isOk = false → (Queue.peek q).2 = q) ∧
    ((Queue.rear q).1.isOk = false → (Queue.rear q).2 = q) ∧
    ((Queue.push v q).1.isOk = false → (Queue.push v q).2 = q) ∧
    ((LinkedList.find i l).1.isOk = false → (LinkedList.find i l).2 = l) ∧
    ((LinkedList.insert i v l).1.isOk = false → (LinkedList.insert i v l).2 = l) ∧
    ((LinkedList.remove i l).1.isOk = false → (LinkedList.remove i l).2 = l) ∧
    ((LinkedList.push v l).1.isOk = false → (LinkedList.push v l).2 = l) ∧
    ((LinkedList.prepend v l).1.isOk = false → (LinkedList.prepend v l).2 = l) ∧
    ((LinkedList.removeData v l).1.isOk = false → (LinkedList.removeData v l).2 = l) :=
  ⟨stack_pop_fail_state st, stack_peek_fail_state st, stack_push_fail_state v st,
   queue_pop_fail_state q, queue_peek_fail_state q, queue_rear_fail_state q,
   queue_push_fail_state v q, list_find_fail_state i l,
   list_insert_fail_state i v l, list_remove_fail_state i l,
   list_push_fail_state v l, list_prepend_fail_state v l,
   list_removeData_fail_state v l⟩

/-- Witness for C8: a failed pop on the empty stack and a failed
out-of-range remove leave the containers untouched. -/
theorem c8_failed_operations_leave_state_unchanged_witness :
    (Stack.pop ⟨[], 0⟩).2 = (⟨[], 0⟩ : Stack) ∧
    (LinkedList.remove 5 ⟨[Value.num 1], some (Value.num 1), 1⟩).2 =
      (⟨[Value.num 1], some (Value.num 1), 1⟩ : LinkedList) :=
  ⟨(c8_failed_operations_leave_state_unchanged ⟨[], 0⟩ ⟨[], none, 0⟩
      ⟨[Value.num 1], some (Value.num 1), 1⟩ 5 (Value.num 1)).1 (by decide),
   (c8_failed_operations_leave_state_unchanged ⟨[], 0⟩ ⟨[], none, 0⟩
      ⟨[Value.num 1], some (Value.num 1), 1⟩ 5
      (Value.num 1)).2.2.2.2.2.2.2.2.2.1 (by decide)⟩

/-- C9 counterexample: `Stack.toString` inserts a space between `(size)` and
the bracket, so the claimed exact format `Stack(1)[1]` is not produced on
the reachable one-element stack. -/
theorem c9_stack_toString_space_counterexample :
    (Stack.push (Value.num 1) ⟨[], 0⟩).2 = (⟨[Value.num 1], 1⟩ : Stack) ∧
    Stack.toStr ⟨[Value.num 1], 1⟩ = "Stack(1) [1]" ∧
    Stack.toStr ⟨[Value.num 1], 1⟩ ≠ "Stack(1)[1]" := by
  refine ⟨rfl, by decide, by decide⟩

/-- C9 (amended): `toString` of a container built by pushing `v1..vn` onto
an empty container renders the size and the elements joined by a comma and
space in the natural iteration order — `Queue(n)[v1, ..., vn]` and
`List(n)[v1, ..., vn]` without a space, and `Stack(n) [vn, ..., v1]` with a
space before the bracket. -/
theorem c9_toString_format (vs : List Value) (q0 sq : Queue)
    (l0 sl : LinkedList) (s0 ss : Stack)
    (hq0 : q0 = Queue.mk' none) (hl0 : l0 = LinkedList.mk' none)
    (hs0 : Stack.mk' none = Except.ok s0)
    (hq : Queue.pushAll vs q0 = Except.ok sq)
    (hl : LinkedList.pushAll vs l0 = Except.ok sl)
    (hs : Stack.pushAll vs s0 = Except.ok ss) :
    Queue.toStr sq =
      "Queue(" ++ toString (vs.length : Int) ++ ")[" ++
        String.intercalate ", " (vs.map Value.display) ++ "]" ∧
    LinkedList.toStr sl =
      "List(" ++ toString (vs.length : Int) ++ ")[" ++
        String.intercalate ", " (vs.map Value.display) ++ "]" ∧
    Stack.toStr ss =
      "Stack(" ++ toString (vs.length : Int) ++ ") [" ++
        String.intercalate ", " (vs.reverse.map Value.display) ++ "]" := by
  subst hq0
  subst hl0
  have hs0e : s0 = ⟨[], 0⟩ := by
    simp only [Stack.mk'] at hs0
    cases hs0
    rfl
  subst hs0e
  have hqs := queue_pushAll_spec vs _ _ hq
  have hls := list_pushAll_spec vs _ _ hl
  have hss := stack_pushAll_spec vs _ _ hs
  have hqc : sq.chain = vs := by simpa [Queue.mk'] using hqs.1
  have hqz : sq.size = (vs.length : Int) := by
    rw [hqs.2]
    simp [Queue.mk']
  have hlc : sl.chain = vs := by simpa [LinkedList.mk'] using hls.1
  have hlz : sl.size = (vs.length : Int) := by
    rw [hls.2]
    simp [LinkedList.mk']
  have hsc : ss.chain = vs.reverse := by simpa using hss.1
  have hsz : ss.size = (vs.length : Int) := by
    rw [hss.2]
    simp
  refine ⟨?_, ?_, ?_⟩
  · rw [Queue.toStr, hqc, hqz]
  · rw [LinkedList.toStr, hlc, hlz]
  · cases hv : vs with
    | nil =>
        subst hv
        rw [Stack.toStr]
        rw [if_pos (by simp [Stack.isEmpty, hsc])]
        decide
    | cons w ws =>
        rw [Stack.toStr,
          if_neg (by simp [Stack.isEmpty, hsc, hv]), hsc, hsz, hv]

/-- Witness for C9 (amended) on the pushed sequence `1, 2`. -/
theorem c9_toString_format_witness :
    Queue.toStr ⟨[Value.num 1, Value.num 2], some (Value.num 2), 2⟩ =
      "Queue(2)[1, 2]" ∧
    LinkedList.toStr ⟨[Value.num 1, Value.num 2], some (Value.num 2), 2⟩ =
      "List(2)[1, 2]" ∧
    Stack.toStr ⟨[Value.num 2, Value.num 1], 2⟩ = "Stack(2) [2, 1]" := by
  have h := c9_toString_format [Value.num 1, Value.num 2]
    (Queue.mk' none) ⟨[Value.num 1, Value.num 2], some (Value.num 2), 2⟩
    (LinkedList.mk' none) ⟨[Value.num 1, Value.num 2], some (Value.num 2), 2⟩
    ⟨[], 0⟩ ⟨[Value.num 2, Value.num 1], 2⟩
    rfl rfl rfl rfl rfl rfl
  refine ⟨?_, ?_, ?_⟩
  · rw [h.1]
    decide
  · rw [h.2.1]
    decide
  · rw [h.2.2]
    decide

/-- C10: `hasData` dispatches on the stored value only — an object stored
value possessing `isEqual` delegates to it, every other stored value is
compared with strict equality even when the argument implements the full
Comparable capability; the containers' `contains`/`indexOf` apply `hasData`
per node. -/
theorem c10_hasData_dispatches_on_stored_value (stored arg : Value) :
    (∀ o : CompObj, stored = Value.obj o → o.hasIsEqual = true →
      Node.hasData stored arg = mockIsEqual o arg) ∧
    (eqCapable stored = false →
      Node.hasData stored arg = Value.strictEq stored arg) ∧
    Node.hasData (Value.num 1) (Value.obj ⟨0, 1, true, true, true⟩) = false ∧
    Stack.contains arg ⟨[stored], 1⟩ = Node.hasData stored arg ∧
    Queue.contains arg ⟨[stored], some stored, 1⟩ = Node.hasData stored arg ∧
    LinkedList.indexOf arg ⟨[stored], some stored, 1⟩ =
      (if Node.hasData stored arg then 0 else -1) := by
  refine ⟨?_, ?_, by decide, ?_, ?_, ?_⟩
  · intro o ho hflag
    subst ho
    simp [Node.hasData, hflag]
  · intro hcap
    cases stored <;> simp_all [Node.hasData, eqCapable]
  · simp [Stack.contains]
  · simp [Queue.contains]
  · simp only [LinkedList.indexOf, LinkedList.indexOfAux]

/-- Witness for C10: a stored primitive is compared by strict equality even
against a fully Comparable argument. -/
theorem c10_hasData_dispatches_on_stored_value_witness :
    Node.hasData (Value.num 1) (Value.obj ⟨0, 1, true, true, true⟩) =
      Value.strictEq (Value.num 1) (Value.obj ⟨0, 1, true, true, true⟩) ∧
    Stack.contains (Value.obj ⟨0, 1, true, true, true⟩) ⟨[Value.num 1], 1⟩ =
      Node.hasData (Value.num 1) (Value.obj ⟨0, 1, true, true, true⟩) :=
  ⟨(c10_hasData_dispatches_on_stored_value (Value.num 1)
      (Value.obj ⟨0, 1, true, true, true⟩)).2.1 (by decide),
   (c10_hasData_dispatches_on_stored_value (Value.num 1)
      (Value.obj ⟨0, 1, true, true, true⟩)).2.2.2.1⟩

end DS
